import Mathlib

/-!
Shallow embedding of the pipeline-orchestration core of the
full-website-generator repository: the orchestrator run loop
(server/agents/AgentOrchestrator.ts), the control logic of the stage
implementations (FrontendAgent.ts, BackendAgent.ts, ValidatorAgent.ts),
and the in-memory persistence operations for project-file records
(server/storage.ts).  The external text-generation backend and the
text-to-file parsing heuristics are parameters of the embedded
functions; machine strings are Lean strings and all helper primitives
are written as plain structural recursion over character lists so that
every definition evaluates on concrete inputs.
-/

namespace FWG

/- JavaScript-flavoured string primitives (split, trim, toLowerCase,
   includes, startsWith), modelled over character lists.  Only the
   ASCII behaviour is exercised by the repository's string constants. -/

def isJsSpace (c : Char) : Bool :=
  c = ' ' || c = '\t' || c = '\n' || c = '\r'

def trimChars (l : List Char) : List Char :=
  ((l.dropWhile isJsSpace).reverse.dropWhile isJsSpace).reverse

/-- JS String.prototype.trim. -/
def jsTrim (s : String) : String := ⟨trimChars s.data⟩

/-- JS String.prototype.toLowerCase (ASCII range). -/
def lowerStr (s : String) : String := ⟨s.data.map Char.toLower⟩

def hasSub : List Char → List Char → Bool
  | [], pat => pat.isEmpty
  | c :: t, pat => pat.isPrefixOf (c :: t) || hasSub t pat

/-- JS String.prototype.includes. -/
def jsIncludes (s pat : String) : Bool := hasSub s.data pat.data

/-- JS String.prototype.startsWith. -/
def jsStartsWith (s pat : String) : Bool := pat.data.isPrefixOf s.data

def splitOnChar (sep : Char) : List Char → List (List Char)
  | [] => [[]]
  | c :: t =>
    match splitOnChar sep t with
    | [] => [[c]]
    | h :: r => if c = sep then [] :: h :: r else (c :: h) :: r

/-- JS String.prototype.split with a one-character separator. -/
def jsSplit (s : String) (sep : Char) : List String :=
  (splitOnChar sep s.data).map (fun l => ⟨l⟩)

/-- JS `x || d` for a possibly-undefined string `x` (empty string is falsy). -/
def jsOrElse (x : Option String) (d : String) : String :=
  match x with
  | some s => if s = "" then d else s
  | none => d

/-- JS template interpolation of a possibly-undefined string. -/
def jsShow (x : Option String) : String := x.getD "undefined"

def takeDigits (l : List Char) : List Char := l.takeWhile Char.isDigit

def dropDigits (l : List Char) : List Char := l.dropWhile Char.isDigit

/-- First match of the regex `(\d+(?:\.\d+)?)` in a line, as the matched
text (the source feeds it to parseFloat; no claim inspects the numeric
value, so the matched literal is retained). -/
def firstNumberToken : List Char → Option String
  | [] => none
  | c :: t =>
    if c.isDigit then
      let ds := takeDigits (c :: t)
      match dropDigits (c :: t) with
      | '.' :: d :: r =>
        if d.isDigit then some ⟨ds ++ '.' :: d :: takeDigits r⟩ else some ⟨ds⟩
      | _ => some ⟨ds⟩
    else firstNumberToken t

/- Data model (shared/schema.ts and AgentOrchestrator.ts). -/

/-- A generated file as returned by a stage (AgentResult.files element). -/
structure GenFile where
  path : String
  content : String
  language : Option String
deriving DecidableEq, Repr

/-- The opaque structured outputs the five stages produce
(`result.output`); one variant per stage-specific shape.  Fields never
read by any other stage or by the orchestrator (structured/config on the
requirement output, architecture/endpoints summaries) are omitted. -/
inductive Output where
  | requirementOut (specification : String)
  | frontendOut (codeGenerated : String) (fileCount : Nat)
  | backendOut (codeGenerated : String) (fileCount : Nat)
  | frontendOnly (message : String)
  | validatorOut (validationReport : String) (criticalIssues minorIssues : List String)
      (qualityScore : String) (fixes : List GenFile) (isProductionReady : Bool)
deriving DecidableEq, Repr

/-- Field access `x.specification` (undefined on other shapes). -/
def Output.specification? : Output → Option String
  | .requirementOut s => some s
  | _ => none

/-- Field access `x.codeGenerated` (undefined on other shapes). -/
def Output.codeGenerated? : Output → Option String
  | .frontendOut c _ => some c
  | .backendOut c _ => some c
  | _ => none

/-- Field access `x.type` (only the skipped-backend sentinel carries it). -/
def Output.typeField? : Output → Option String
  | .frontendOnly _ => some "frontend-only"
  | _ => none

/-- AgentResult from AgentOrchestrator.ts: `output` is optional in the
interface, so a missing field is `none`. -/
structure AgentResult where
  success : Bool
  output : Option Output
  error : Option String
  files : List GenFile
deriving DecidableEq, Repr

/-- `state.agentOutputs`: a JS object keyed by stage name.  A key may be
present with value `undefined` (modelled `some none` under lookup). -/
def OutputsMap := List (String × Option Output)
deriving DecidableEq, Repr

/-- Truthy read `previousOutputs[k]`: a present, defined object. -/
def getTruthy (m : OutputsMap) (k : String) : Option Output :=
  match List.lookup k m with
  | some (some o) => some o
  | _ => none

/-- JS object assignment `m[k] = v`: overwrite if the key exists,
otherwise append the key. -/
def setKey {α : Type} (m : List (String × α)) (k : String) (v : α) :
    List (String × α) :=
  if (List.lookup k m).isSome then
    m.map (fun p => if p.1 = k then (k, v) else p)
  else m ++ [(k, v)]

/-- One element of `state.errors`. -/
structure ErrEntry where
  agent : String
  error : String
  timestamp : String
deriving DecidableEq, Repr

/-- AgentState from shared/schema.ts. -/
structure AgentState where
  currentAgent : Option String
  completedAgents : List String
  agentProgress : List (String × Nat)
  agentOutputs : OutputsMap
  errors : List ErrEntry
deriving DecidableEq, Repr

/-- AgentConfig from AgentOrchestrator.ts. -/
structure AgentConfig where
  name : String
  description : String
  dependencies : List String
deriving DecidableEq, Repr

/-- The fixed stage declaration list (`agentConfigs`). -/
def agentConfigs : List AgentConfig := [
  ⟨"Requirement", "Parse user requirements", []⟩,
  ⟨"Frontend", "Generate frontend code", ["Requirement"]⟩,
  ⟨"Backend", "Generate backend code", ["Requirement"]⟩,
  ⟨"Validator", "Validate generated code", ["Frontend", "Backend"]⟩,
  ⟨"Deployment", "Package for deployment", ["Validator"]⟩]

/-- Lifecycle events the orchestrator emits on its EventEmitter.  The
per-stage `log` and `progress` events are emitted by the stages
themselves through BaseAgent and are outside the run-loop model. -/
inductive Event where
  | projectStarted
  | projectResumed
  | projectPaused
  | projectCompleted
  | projectError (message : String)
  | agentStarted (agent : String)
  | agentCompleted (agent : String)
  | agentError (agent : String) (message : String)
deriving DecidableEq, Repr

/-- How one pass over the configuration list ended: normally, by the
dependencies-not-met throw, or by a stage failure (the rethrow after the
catch block). -/
inductive PipeEnd where
  | completedAll
  | depsUnmet (agent : String) (missing : List String)
  | agentFailed (agent : String) (message : String)
deriving DecidableEq, Repr

/-- The record handed to storage.addProjectFile by the run loop. -/
structure InsertFile where
  path : String
  content : String
  size : Nat
  language : Option String
deriving DecidableEq, Repr

/-- Everything observable about one execution of the `for` loop inside
executeAgentPipeline: final in-memory state, the sequence of
updateProjectState persists, emitted events, files saved, the stages
actually executed with their results, and how the loop ended. -/
structure LoopOut where
  finalState : AgentState
  stateWrites : List AgentState
  events : List Event
  savedFiles : List InsertFile
  execLog : List (String × AgentResult)
  stop : PipeEnd
deriving DecidableEq, Repr

/-- Project configuration blob (client ProjectSetup shape), as read by
the stages. -/
structure ProjectConfig where
  projectName : String
  description : String
  stack : String
  database : String
  features : Option (List String)
deriving DecidableEq, Repr

def missingDeps (deps completed : List String) : List String :=
  deps.filter (fun d => !(completed.contains d))

/-- The `for (const agentConfig of this.agentConfigs)` loop of
AgentOrchestrator.executeAgentPipeline.  `exec` stands for
`agent.execute(projectId, project.config, state.agentOutputs)` (each
stage's top-level try/catch makes execute return rather than throw);
`now` supplies the successive `new Date().toISOString()` values. -/
def runLoop (exec : String → ProjectConfig → OutputsMap → AgentResult)
    (cfg : ProjectConfig) (now : Nat → String) (k : Nat) (s : AgentState) :
    List AgentConfig → LoopOut
  | [] => ⟨s, [], [], [], [], .completedAll⟩
  | c :: rest =>
    if s.completedAgents.contains c.name then
      runLoop exec cfg now k s rest
    else if c.dependencies.all (fun d => s.completedAgents.contains d) then
      let s1 : AgentState := { s with currentAgent := some c.name }
      let r := exec c.name cfg s.agentOutputs
      if r.success then
        let s2 : AgentState := { s1 with
          completedAgents := s1.completedAgents ++ [c.name],
          agentOutputs := setKey s1.agentOutputs c.name r.output,
          agentProgress := setKey s1.agentProgress c.name 100 }
        let files := r.files.map
          (fun f => InsertFile.mk f.path f.content f.content.length f.language)
        let s3 : AgentState := { s2 with currentAgent := none }
        let tail := runLoop exec cfg now k s3 rest
        ⟨tail.finalState, s1 :: s3 :: tail.stateWrites,
          .agentStarted c.name :: .agentCompleted c.name :: tail.events,
          files ++ tail.savedFiles, (c.name, r) :: tail.execLog, tail.stop⟩
      else
        let msg := "Agent " ++ c.name ++ " failed: " ++ jsShow r.error
        let e1 : ErrEntry := ⟨c.name, jsOrElse r.error "Unknown error", now k⟩
        let e2 : ErrEntry := ⟨c.name, msg, now (k + 1)⟩
        let sf : AgentState := { s1 with errors := s1.errors ++ [e1, e2] }
        ⟨sf, [s1, sf], [.agentStarted c.name, .agentError c.name msg], [],
          [(c.name, r)], .agentFailed c.name msg⟩
    else
      ⟨s, [], [], [], [], .depsUnmet c.name (missingDeps c.dependencies s.completedAgents)⟩

/-- Observable outcome of one orchestrator entry point: status writes
(updateProjectStatus calls, in order), state writes, events, saved
files, executed stages, final in-memory state and termination. -/
structure RunOut where
  finalState : AgentState
  statusWrites : List String
  stateWrites : List AgentState
  events : List Event
  savedFiles : List InsertFile
  execLog : List (String × AgentResult)
  stop : PipeEnd
deriving DecidableEq, Repr

/-- The default Execution State used when `project.state` is null
(executeAgentPipeline line 103), also the shape of the fresh state
startProject installs. -/
def defaultState : AgentState := ⟨none, [], [], [], []⟩

/-- AgentOrchestrator.executeAgentPipeline: run the loop over the fixed
configuration list; on normal completion set status `completed` and emit
project-completed; a throw propagates to the caller. -/
def executeAgentPipeline (exec : String → ProjectConfig → OutputsMap → AgentResult)
    (cfg : ProjectConfig) (now : Nat → String) (stateOpt : Option AgentState) :
    RunOut :=
  let s := stateOpt.getD defaultState
  let l := runLoop exec cfg now 0 s agentConfigs
  match l.stop with
  | .completedAll =>
    ⟨l.finalState, ["completed"], l.stateWrites, l.events ++ [.projectCompleted],
      l.savedFiles, l.execLog, .completedAll⟩
  | e => ⟨l.finalState, [], l.stateWrites, l.events, l.savedFiles, l.execLog, e⟩

/-- Fresh Execution State installed by startProject. -/
def initialState : AgentState := ⟨none, [], [], [], []⟩

/-- AgentOrchestrator.startProject on an existing project: set status
`running`, install and persist the fresh state, emit project-started,
run the pipeline; the surrounding catch turns any throw into a status
write `error` plus a project-error event carrying the message. -/
def startProject (exec : String → ProjectConfig → OutputsMap → AgentResult)
    (cfg : ProjectConfig) (now : Nat → String) : RunOut :=
  let p := executeAgentPipeline exec cfg now (some initialState)
  match p.stop with
  | .completedAll =>
    ⟨p.finalState, "running" :: p.statusWrites, initialState :: p.stateWrites,
      .projectStarted :: p.events, p.savedFiles, p.execLog, .completedAll⟩
  | .depsUnmet a missing =>
    let msg := "Agent " ++ a ++ " dependencies not met: " ++ String.intercalate ", " missing
    ⟨p.finalState, ("running" :: p.statusWrites) ++ ["error"],
      initialState :: p.stateWrites, (.projectStarted :: p.events) ++ [.projectError msg],
      p.savedFiles, p.execLog, .depsUnmet a missing⟩
  | .agentFailed a msg =>
    ⟨p.finalState, ("running" :: p.statusWrites) ++ ["error"],
      initialState :: p.stateWrites, (.projectStarted :: p.events) ++ [.projectError msg],
      p.savedFiles, p.execLog, .agentFailed a msg⟩

/-- AgentOrchestrator.resumeProject on an existing project: set status
`running`, emit project-resumed, re-enter the pipeline on the persisted
state.  There is no catch here: a throw propagates to the caller (the
route only logs it), recorded in `stop`. -/
def resumeProject (exec : String → ProjectConfig → OutputsMap → AgentResult)
    (cfg : ProjectConfig) (now : Nat → String) (stateOpt : Option AgentState) :
    RunOut :=
  let p := executeAgentPipeline exec cfg now stateOpt
  ⟨p.finalState, "running" :: p.statusWrites, p.stateWrites,
    .projectResumed :: p.events, p.savedFiles, p.execLog, p.stop⟩

/-- AgentOrchestrator.pauseProject: unconditionally writes status
`paused` and emits project-paused; it reads nothing. -/
def pauseProject : List String × List Event := (["paused"], [.projectPaused])

/-- Resulting status after a sequence of updateProjectStatus writes. -/
def applyStatusWrites (init : String) (ws : List String) : String :=
  ws.getLastD init

/-- A stored project row, as far as status and state are concerned. -/
structure ProjectRec where
  name : String
  config : ProjectConfig
  status : String
  state : Option AgentState
deriving DecidableEq, Repr

/-- MemStorage.createProject: every project is created with status
`pending` and null state. -/
def createProject (name : String) (cfg : ProjectConfig) : ProjectRec :=
  ⟨name, cfg, "pending", none⟩

/- MemStorage project-file records (storage.ts). -/

/-- A stored project-file row. -/
structure StoredFile where
  id : String
  path : String
  content : String
  size : Nat
  language : Option String
deriving DecidableEq, Repr

/-- MemStorage.addProjectFile: stores the insert record as given (the
size field is trusted), under a caller-independent fresh id. -/
def addProjectFile (store : List StoredFile) (id : String) (f : InsertFile) :
    List StoredFile :=
  store ++ [⟨id, f.path, f.content, f.size, f.language⟩]

/-- storage.addProjectFile as invoked by the run loop (AgentOrchestrator
lines 150-156): the size passed is always `file.content.length`. -/
def orchAddFile (store : List StoredFile) (id : String) (g : GenFile) :
    List StoredFile :=
  addProjectFile store id ⟨g.path, g.content, g.content.length, g.language⟩

/-- MemStorage.updateProjectFile: replace the content of the row with
the given id and recompute its size; no-op when the id is absent. -/
def updateProjectFile (store : List StoredFile) (id : String) (content : String) :
    List StoredFile :=
  store.map (fun f =>
    if f.id = id then { f with content := content, size := content.length } else f)

/-- Size coherence of the file store. -/
def SizeInv (store : List StoredFile) : Prop :=
  ∀ f ∈ store, f.size = f.content.length

/- Stage selector (the head of the run loop body), and the selector the
spec describes, for comparison. -/

/-- First declaration not yet completed, in configuration order. -/
def firstUncompleted (completed : List String) : Option AgentConfig :=
  agentConfigs.find? (fun c => !(completed.contains c.name))

/-- What the loop head does as a function of `completedStages`: skip
completed declarations; take the first uncompleted one if its
dependencies are all completed, otherwise throw dependencies-not-met. -/
def codeSelect (completed : List String) :
    Except (String × List String) (Option String) :=
  match firstUncompleted completed with
  | none => .ok none
  | some c =>
    if c.dependencies.all (fun d => completed.contains d) then .ok (some c.name)
    else .error (c.name, missingDeps c.dependencies completed)

/-- Modelled from the spec (stage-selector algorithm): the first
declaration in configuration order that is not completed and whose full
dependency set is a subset of `completedStages`. -/
def specSelect (completed : List String) : Option String :=
  (agentConfigs.find? (fun c =>
    !(completed.contains c.name) && c.dependencies.all (fun d => completed.contains d))).map
    (fun c => c.name)

/- Execution-state invariant (data model section of the spec). -/

/-- Declared dependencies of a stage name, read off the fixed
configuration list. -/
def depsOf (a : String) : List String :=
  ((agentConfigs.find? (fun c => c.name = a)).map (fun c => c.dependencies)).getD []

/-- The Execution State invariant: every completed stage has all of its
declared dependencies completed, and the key list of `agentOutputs` is
exactly `completedAgents` (in order). -/
def Inv (s : AgentState) : Prop :=
  (∀ a ∈ s.completedAgents, ∀ d ∈ depsOf a, d ∈ s.completedAgents) ∧
  s.agentOutputs.map (fun p => p.1) = s.completedAgents

instance (s : AgentState) : Decidable (Inv s) := by
  unfold Inv; infer_instance

/- ValidatorAgent.ts control logic. -/

/-- Response of geminiService.generateContent (gemini.ts AIResponse). -/
structure AIResponse where
  content : String
  success : Bool
  error : Option String
deriving DecidableEq, Repr

/-- Accumulator of ValidatorAgent.parseValidationResults. -/
structure ValidationResults where
  criticalIssues : List String
  minorIssues : List String
  qualityScore : String
deriving DecidableEq, Repr

/-- One iteration of the line loop in parseValidationResults.  The
state is the results record plus `currentSection`.  The third bullet
prefix is the mojibake byte sequence literally present in the source
file.  The quality score keeps the text matched by the number regex
(the source applies parseFloat to it; the numeric value is never read
by another component). -/
def stepLine (st : ValidationResults × String) (line : String) :
    ValidationResults × String :=
  let lower := lowerStr line
  let afterSection : ValidationResults × String :=
    if jsIncludes lower "critical" || jsIncludes lower "error" || jsIncludes lower "security" then
      (st.1, "critical")
    else if jsIncludes lower "minor" || jsIncludes lower "improvement" || jsIncludes lower "suggestion" then
      (st.1, "minor")
    else if jsIncludes lower "score" || jsIncludes lower "rating" then
      (match firstNumberToken line.data with
       | some n => ({ st.1 with qualityScore := n }, st.2)
       | none => st)
    else st
  let t := jsTrim line
  if jsStartsWith t "-" || jsStartsWith t "*" || jsStartsWith t "â€¢" then
    let issue := jsTrim ⟨t.data.drop 1⟩
    if issue.length > 10 then
      if afterSection.2 = "critical" then
        ({ afterSection.1 with criticalIssues := afterSection.1.criticalIssues ++ [issue] },
          afterSection.2)
      else if afterSection.2 = "minor" then
        ({ afterSection.1 with minorIssues := afterSection.1.minorIssues ++ [issue] },
          afterSection.2)
      else afterSection
    else afterSection
  else afterSection

/-- ValidatorAgent.parseValidationResults. -/
def parseValidationResults (content : String) : ValidationResults :=
  ((jsSplit content '\n').foldl stepLine (⟨[], [], "7"⟩, "")).1

/-- ValidatorAgent.generateFixes, parameterised by the response of the
corrective generation call and by parseFixedFiles (a pure
text-to-artifacts heuristic, outside the orchestration core).  Returns
the fixes plus the number of generation calls made. -/
def generateFixes (fixResp : AIResponse) (parseFixed : String → List GenFile)
    (criticalIssues : List String) : List GenFile × Nat :=
  if criticalIssues.length = 0 then ([], 0)
  else if fixResp.success && fixResp.content ≠ "" then (parseFixed fixResp.content, 1)
  else ([], 1)

/-- The `codeToValidate` record built at the top of
ValidatorAgent.execute. -/
structure CodeToValidate where
  frontend : String
  backend : String
  hasBackend : Bool
deriving DecidableEq, Repr

/-- Lines 10-22 of ValidatorAgent.execute: only the Frontend output is
required; a missing or sentinel Backend output just yields empty backend
code and hasBackend = false. -/
def validatorCode (prev : OutputsMap) : Option CodeToValidate :=
  match getTruthy prev "Frontend" with
  | none => none
  | some fo =>
    some ⟨(fo.codeGenerated?).getD "",
      ((getTruthy prev "Backend").bind Output.codeGenerated?).getD "",
      !(((getTruthy prev "Backend").bind Output.typeField?) = some "frontend-only")⟩

/-- ValidatorAgent.execute, parameterised by the two generation-call
responses and by parseFixedFiles.  Returns the AgentResult plus the
number of generation calls made.  The missing-Frontend throw is caught
by the stage's own try/catch and surfaces as a failure result. -/
def validatorExecute (valResp fixResp : AIResponse)
    (parseFixed : String → List GenFile) (prev : OutputsMap) :
    AgentResult × Nat :=
  match validatorCode prev with
  | none =>
    (⟨false, none, some "Frontend output not found from previous agent", []⟩, 0)
  | some _ =>
    if valResp.success then
      let results := parseValidationResults valResp.content
      if results.criticalIssues.length > 0 then
        let fx := generateFixes fixResp parseFixed results.criticalIssues
        (⟨true,
          some (.validatorOut valResp.content results.criticalIssues
            results.minorIssues results.qualityScore fx.1 false),
          none, fx.1⟩, 1 + fx.2)
      else
        (⟨true,
          some (.validatorOut valResp.content [] results.minorIssues
            results.qualityScore [] true),
          none, []⟩, 1)
    else (⟨false, none, some (jsOrElse valResp.error "Failed to validate code"), []⟩, 1)

/- BackendAgent.ts and FrontendAgent.ts control logic. -/

/-- The keyword list of BackendAgent.checkIfBackendNeeded. -/
def backendKeywords : List String :=
  ["database", "api", "authentication", "auth", "login", "register",
   "server", "backend", "storage", "persistence", "user management"]

/-- BackendAgent.checkIfBackendNeeded. -/
def checkIfBackendNeeded (config : ProjectConfig) (requirements : Output) : Bool :=
  let description := lowerStr config.description
  let specification := lowerStr ((requirements.specification?).getD "")
  backendKeywords.any (fun keyword =>
    jsIncludes description keyword || jsIncludes specification keyword)
  || config.database ≠ "none"
  || (match config.features with
      | none => false
      | some fs => fs.length > 0)

/-- BackendAgent.execute, parameterised by the generation response and
by parseCodeIntoFiles (text-to-artifacts heuristic).  A missing
Requirement output fails fast; an unneeded backend returns the
skipped sentinel with zero artifacts before any generation call. -/
def backendExecute (gen : AIResponse)
    (parse : String → ProjectConfig → List GenFile) (cfg : ProjectConfig)
    (prev : OutputsMap) : AgentResult :=
  match getTruthy prev "Requirement" with
  | none => ⟨false, none, some "Requirements not found from previous agent", []⟩
  | some req =>
    if checkIfBackendNeeded cfg req then
      if gen.success then
        let files := parse gen.content cfg
        ⟨true, some (.backendOut gen.content files.length), none, files⟩
      else ⟨false, none, some (jsOrElse gen.error "Failed to generate backend code"), []⟩
    else ⟨true, some (.frontendOnly "No backend required"), none, []⟩

/-- FrontendAgent.execute, parameterised the same way. -/
def frontendExecute (gen : AIResponse)
    (parse : String → ProjectConfig → List GenFile) (cfg : ProjectConfig)
    (prev : OutputsMap) : AgentResult :=
  match getTruthy prev "Requirement" with
  | none => ⟨false, none, some "Requirements not found from previous agent", []⟩
  | some _ =>
    if gen.success then
      let files := parse gen.content cfg
      ⟨true, some (.frontendOut gen.content files.length), none, files⟩
    else ⟨false, none, some (jsOrElse gen.error "Failed to generate frontend code"), []⟩

/- Event classifiers and decidability helpers. -/

/-- Recognises the run-error event kind. -/
def isRunErrorEv : Event → Bool
  | .projectError _ => true
  | _ => false

/-- Recognises the run-completed event kind. -/
def isRunCompletedEv : Event → Bool
  | .projectCompleted => true
  | _ => false

instance (store : List StoredFile) : Decidable (SizeInv store) := by
  unfold SizeInv; infer_instance

/- Concrete fixtures used to instantiate the universally quantified
theorems on explicit inputs. -/

/-- A concrete project configuration. -/
def cfgW : ProjectConfig := ⟨"proj", "a landing page", "react", "none", none⟩

/-- A concrete timestamp source. -/
def nowW : Nat → String := fun _ => "2024-01-01T00:00:00.000Z"

/-- An execute oracle that fails immediately. -/
def execFailW : String → ProjectConfig → OutputsMap → AgentResult :=
  fun _ _ _ => ⟨false, none, some "boom", []⟩

/-- An execute oracle matching Scenario D: the Requirement stage
succeeds, every later stage reports a generation failure. -/
def execScenD : String → ProjectConfig → OutputsMap → AgentResult :=
  fun n _ _ =>
    if n = "Requirement" then ⟨true, some (.requirementOut "spec text"), none, []⟩
    else ⟨false, none, some "model unavailable", []⟩

/-- An execute oracle on which every stage succeeds. -/
def execAllOk : String → ProjectConfig → OutputsMap → AgentResult :=
  fun n _ _ => ⟨true, some (.requirementOut n), none, []⟩

/-- An Execution State in which all five declared stages are complete. -/
def stateAllDone : AgentState :=
  ⟨none, ["Requirement", "Frontend", "Backend", "Validator", "Deployment"], [],
    [("Requirement", some (.requirementOut "sp")),
     ("Frontend", some (.frontendOut "f" 1)),
     ("Backend", some (.frontendOnly "No backend required")),
     ("Validator", some (.validatorOut "ok" [] [] "7" [] true)),
     ("Deployment", some (.requirementOut "pkg"))], []⟩

/-- Outputs map holding a Frontend output but no Backend output. -/
def prevNoBackend : OutputsMap := [("Frontend", some (.frontendOut "x" 0))]

/-- A validation-call response whose report parses to one critical
issue. -/
def vrCritical : AIResponse :=
  ⟨"Critical issues:\n- This is a serious bug here", true, none⟩

/-- A failing corrective-generation response. -/
def frFailing : AIResponse := ⟨"", false, some "quota exceeded"⟩

/- General helper lemmas. -/

theorem contains_iff_mem (l : List String) (a : String) :
    l.contains a = true ↔ a ∈ l := by
  rw [List.contains]; exact List.elem_iff

theorem lookup_isSome_iff {α : Type} (k : String) :
    ∀ m : List (String × α), (List.lookup k m).isSome ↔ k ∈ m.map (fun p => p.1)
  | [] => by simp
  | (a, b) :: t => by
    by_cases h : k = a
    · subst h; simp [List.lookup]
    · have hb : (k == a) = false := beq_false_of_ne h
      simp [List.lookup, hb, lookup_isSome_iff k t, h]

theorem setKey_keys_fresh {α : Type} (m : List (String × α)) (k : String) (v : α)
    (h : k ∉ m.map (fun p => p.1)) :
    (setKey m k v).map (fun p => p.1) = m.map (fun p => p.1) ++ [k] := by
  have hs : (List.lookup k m).isSome = false := by
    rw [Bool.eq_false_iff]
    intro hsome
    exact h ((lookup_isSome_iff k m).mp hsome)
  simp [setKey, hs]

/- Structure of the run loop: skipping, head selection, failure anatomy. -/

theorem runLoop_skip_all (exec : String → ProjectConfig → OutputsMap → AgentResult)
    (cfg : ProjectConfig) (now : Nat → String) :
    ∀ (configs : List AgentConfig) (k : Nat) (s : AgentState),
      (∀ c ∈ configs, s.completedAgents.contains c.name = true) →
      runLoop exec cfg now k s configs = ⟨s, [], [], [], [], .completedAll⟩
  | [], _, _, _ => rfl
  | c :: rest, k, s, h => by
    have hc : s.completedAgents.contains c.name = true := h c (by simp)
    rw [runLoop, if_pos hc]
    exact runLoop_skip_all exec cfg now rest k s (fun d hd => h d (by simp [hd]))

theorem runLoop_no_run_events (exec : String → ProjectConfig → OutputsMap → AgentResult)
    (cfg : ProjectConfig) (now : Nat → String) :
    ∀ (configs : List AgentConfig) (k : Nat) (s : AgentState) (e : Event),
      e ∈ (runLoop exec cfg now k s configs).events → isRunErrorEv e = false ∧ isRunCompletedEv e = false
  | [], _, _, _ => by intro h; simp [runLoop] at h
  | c :: rest, k, s, e => by
    intro h
    rw [runLoop] at h
    by_cases h1 : s.completedAgents.contains c.name
    · rw [if_pos h1] at h
      exact runLoop_no_run_events exec cfg now rest k s e h
    · rw [if_neg h1] at h
      by_cases h2 : c.dependencies.all (fun d => s.completedAgents.contains d)
      · rw [if_pos h2] at h
        by_cases h3 : (exec c.name cfg s.agentOutputs).success
        · simp only [if_pos h3, List.mem_cons] at h
          rcases h with rfl | rfl | h
          · exact ⟨rfl, rfl⟩
          · exact ⟨rfl, rfl⟩
          · exact runLoop_no_run_events exec cfg now rest k _ e h
        · simp only [if_neg h3, List.mem_cons, List.mem_singleton] at h
          rcases h with rfl | rfl | h
          · exact ⟨rfl, rfl⟩
          · exact ⟨rfl, rfl⟩
          · exact absurd h (List.not_mem_nil e)
      · rw [if_neg h2] at h
        simp at h

theorem runLoop_head (exec : String → ProjectConfig → OutputsMap → AgentResult)
    (cfg : ProjectConfig) (now : Nat → String) :
    ∀ (configs : List AgentConfig) (k : Nat) (s : AgentState),
      ((runLoop exec cfg now k s configs).execLog.head?).map (fun p => p.1) =
        (match configs.find? (fun c => !(s.completedAgents.contains c.name)) with
         | none => none
         | some c =>
           if c.dependencies.all (fun d => s.completedAgents.contains d) then some c.name
           else none)
  | [], _, _ => rfl
  | c :: rest, k, s => by
    by_cases h1 : c.name ∈ s.completedAgents
    · have hc : s.completedAgents.contains c.name = true := by simpa using h1
      rw [runLoop, if_pos hc, runLoop_head exec cfg now rest k s]
      simp [List.find?, h1]
    · rw [runLoop, if_neg (by simp [h1])]
      by_cases h2 : (c.dependencies.all fun d => s.completedAgents.contains d) = true
      · have h2m : ∀ x ∈ c.dependencies, x ∈ s.completedAgents := by simpa using h2
        rw [if_pos h2]
        by_cases h3 : (exec c.name cfg s.agentOutputs).success = true
        · simp only [if_pos h3, List.find?, List.head?, Option.map]
          simp [h1]
          exact h2m
        · simp only [if_neg h3, List.find?, List.head?, Option.map]
          simp [h1]
          exact h2m
      · have h2m : ¬ ∀ x ∈ c.dependencies, x ∈ s.completedAgents := by simpa using h2
        rw [if_neg h2]
        simp [List.find?, h1, h2m]

theorem selectAgree (completed : List String) :
    codeSelect completed = .ok (specSelect completed) ∧
    (match agentConfigs.find? (fun c => !(completed.contains c.name)) with
     | none => none
     | some c =>
       if c.dependencies.all (fun d => completed.contains d) then some c.name
       else none) = specSelect completed := by
  by_cases h1 : "Requirement" ∈ completed
  <;> by_cases h2 : "Frontend" ∈ completed
  <;> by_cases h3 : "Backend" ∈ completed
  <;> by_cases h4 : "Validator" ∈ completed
  <;> by_cases h5 : "Deployment" ∈ completed
  <;> simp [codeSelect, specSelect, firstUncompleted, agentConfigs, missingDeps,
        List.find?, h1, h2, h3, h4, h5]

theorem getLast?_cons_ne {α : Type} (x : α) {l : List α} (h : l ≠ []) :
    (x :: l).getLast? = l.getLast? := by
  cases l with
  | nil => exact absurd rfl h
  | cons b t => exact List.getLast?_cons_cons ..

theorem dropLast_cons_ne {α : Type} (x : α) {l : List α} (h : l ≠ []) :
    (x :: l).dropLast = x :: l.dropLast := by
  cases l with
  | nil => exact absurd rfl h
  | cons b t => exact List.dropLast_cons₂ ..

/-- Anatomy of a run-loop pass that ends in a stage failure: the failing
stage is the last one executed, every earlier executed stage succeeded
and was appended (in order) to `completedAgents`, the failing stage is
not completed, exactly the two error entries of the failure path are
appended, the resulting state is the last one persisted, and the last
event emitted by the loop is the stage-error event. -/
theorem runLoop_failure_anatomy (exec : String → ProjectConfig → OutputsMap → AgentResult)
    (cfg : ProjectConfig) (now : Nat → String) (configs : List AgentConfig) :
    ∀ (k : Nat) (s : AgentState) (a msg : String),
      (runLoop exec cfg now k s configs).stop = .agentFailed a msg →
      ∃ r t1 t2,
        r.success = false ∧
        msg = "Agent " ++ a ++ " failed: " ++ jsShow r.error ∧
        (runLoop exec cfg now k s configs).execLog.getLast? = some (a, r) ∧
        (∀ p ∈ (runLoop exec cfg now k s configs).execLog.dropLast, p.2.success = true) ∧
        (runLoop exec cfg now k s configs).finalState.completedAgents =
          s.completedAgents ++
            ((runLoop exec cfg now k s configs).execLog.dropLast).map (fun p => p.1) ∧
        a ∉ (runLoop exec cfg now k s configs).finalState.completedAgents ∧
        (runLoop exec cfg now k s configs).finalState.errors =
          s.errors ++ [⟨a, jsOrElse r.error "Unknown error", t1⟩, ⟨a, msg, t2⟩] ∧
        (runLoop exec cfg now k s configs).stateWrites.getLast? =
          some (runLoop exec cfg now k s configs).finalState ∧
        (runLoop exec cfg now k s configs).events.getLast? =
          some (.agentError a msg) := by
  induction configs with
  | nil =>
    intro k s a msg h
    simp [runLoop] at h
  | cons c rest ih =>
    intro k s a msg h
    simp only [runLoop] at h ⊢
    by_cases hcont : s.completedAgents.contains c.name = true
    · rw [if_pos hcont] at h ⊢
      exact ih k s a msg h
    · rw [if_neg hcont] at h ⊢
      by_cases h2 : (c.dependencies.all fun d => s.completedAgents.contains d) = true
      · rw [if_pos h2] at h ⊢
        by_cases hsucc : (exec c.name cfg s.agentOutputs).success = true
        case neg =>
          have hsuccf : (exec c.name cfg s.agentOutputs).success = false := by
            rwa [Bool.not_eq_true] at hsucc
          rw [if_neg hsucc] at h ⊢
          simp only [PipeEnd.agentFailed.injEq] at h
          obtain ⟨rfl, rfl⟩ := h
          refine ⟨exec c.name cfg s.agentOutputs, now k, now (k + 1),
            hsuccf, rfl, rfl, ?_, by simp, ?_, rfl, rfl, rfl⟩
          · intro p hp
            simp at hp
          · have hnm : c.name ∉ s.completedAgents := by
              intro hm
              exact hcont ((contains_iff_mem s.completedAgents c.name).mpr hm)
            simpa using hnm
        case pos =>
          rw [if_pos hsucc] at h ⊢
          set s3 : AgentState :=
            { currentAgent := none, completedAgents := s.completedAgents ++ [c.name],
              agentProgress := setKey s.agentProgress c.name 100,
              agentOutputs := setKey s.agentOutputs c.name (exec c.name cfg s.agentOutputs).output,
              errors := s.errors } with hs3
          have hstop : (runLoop exec cfg now k s3 rest).stop = .agentFailed a msg := h
          obtain ⟨r, t1, t2, hrs, hmsg, hlast, hdrop, hcomp, hnotin, herr, hw, hev⟩ :=
            ih k s3 a msg hstop
          have htne : (runLoop exec cfg now k s3 rest).execLog ≠ [] := by
            intro he
            rw [he] at hlast
            exact Option.noConfusion hlast
          have hwne : (runLoop exec cfg now k s3 rest).stateWrites ≠ [] := by
            intro he
            rw [he] at hw
            exact Option.noConfusion hw
          have hevne : (runLoop exec cfg now k s3 rest).events ≠ [] := by
            intro he
            rw [he] at hev
            exact Option.noConfusion hev
          refine ⟨r, t1, t2, hrs, hmsg, ?_, ?_, ?_, ?_, ?_, ?_, ?_⟩
          · show ((c.name, exec c.name cfg s.agentOutputs) ::
                (runLoop exec cfg now k s3 rest).execLog).getLast? = some (a, r)
            rw [getLast?_cons_ne _ htne]
            exact hlast
          · show ∀ p ∈ ((c.name, exec c.name cfg s.agentOutputs) ::
                (runLoop exec cfg now k s3 rest).execLog).dropLast, p.2.success = true
            intro p hp
            rw [dropLast_cons_ne _ htne] at hp
            rcases List.mem_cons.mp hp with rfl | hp2
            · exact hsucc
            · exact hdrop p hp2
          · show (runLoop exec cfg now k s3 rest).finalState.completedAgents =
                s.completedAgents ++ List.map (fun p => p.1)
                  ((c.name, exec c.name cfg s.agentOutputs) ::
                    (runLoop exec cfg now k s3 rest).execLog).dropLast
            rw [dropLast_cons_ne _ htne, List.map_cons, hcomp, hs3]
            simp
          · show a ∉ (runLoop exec cfg now k s3 rest).finalState.completedAgents
            exact hnotin
          · show (runLoop exec cfg now k s3 rest).finalState.errors =
                s.errors ++ [⟨a, jsOrElse r.error "Unknown error", t1⟩, ⟨a, msg, t2⟩]
            exact herr
          · show ({ s with currentAgent := some c.name } :: s3 ::
                (runLoop exec cfg now k s3 rest).stateWrites).getLast? =
                some (runLoop exec cfg now k s3 rest).finalState
            rw [getLast?_cons_ne _ (List.cons_ne_nil s3 _), getLast?_cons_ne _ hwne]
            exact hw
          · show (Event.agentStarted c.name :: Event.agentCompleted c.name ::
                (runLoop exec cfg now k s3 rest).events).getLast? =
                some (.agentError a msg)
            rw [getLast?_cons_ne _ (List.cons_ne_nil (Event.agentCompleted c.name) _),
              getLast?_cons_ne _ hevne]
            exact hev
      · rw [if_neg h2] at h
        simp at h

theorem pipeline_failed (exec : String → ProjectConfig → OutputsMap → AgentResult)
    (cfg : ProjectConfig) (now : Nat → String) (sOpt : Option AgentState)
    (a msg : String)
    (h : (executeAgentPipeline exec cfg now sOpt).stop = .agentFailed a msg) :
    (runLoop exec cfg now 0 (sOpt.getD defaultState) agentConfigs).stop = .agentFailed a msg ∧
    executeAgentPipeline exec cfg now sOpt =
      ⟨(runLoop exec cfg now 0 (sOpt.getD defaultState) agentConfigs).finalState, [],
       (runLoop exec cfg now 0 (sOpt.getD defaultState) agentConfigs).stateWrites,
       (runLoop exec cfg now 0 (sOpt.getD defaultState) agentConfigs).events,
       (runLoop exec cfg now 0 (sOpt.getD defaultState) agentConfigs).savedFiles,
       (runLoop exec cfg now 0 (sOpt.getD defaultState) agentConfigs).execLog,
       .agentFailed a msg⟩ := by
  unfold executeAgentPipeline at h ⊢
  cases hl : (runLoop exec cfg now 0 (sOpt.getD defaultState) agentConfigs).stop with
  | completedAll =>
    simp only [hl] at h
    exact absurd h (by simp)
  | depsUnmet a2 m2 =>
    simp only [hl] at h
    exact absurd h (by simp)
  | agentFailed a2 m2 =>
    simp only [hl] at h ⊢
    obtain ⟨rfl, rfl⟩ : a2 = a ∧ m2 = msg := by
      simpa using h
    exact ⟨rfl, rfl⟩

theorem startProject_failed (exec : String → ProjectConfig → OutputsMap → AgentResult)
    (cfg : ProjectConfig) (now : Nat → String) (a msg : String)
    (h : (startProject exec cfg now).stop = .agentFailed a msg) :
    (runLoop exec cfg now 0 initialState agentConfigs).stop = .agentFailed a msg ∧
    startProject exec cfg now =
      ⟨(runLoop exec cfg now 0 initialState agentConfigs).finalState, ["running", "error"],
       initialState :: (runLoop exec cfg now 0 initialState agentConfigs).stateWrites,
       (.projectStarted :: (runLoop exec cfg now 0 initialState agentConfigs).events)
         ++ [.projectError msg],
       (runLoop exec cfg now 0 initialState agentConfigs).savedFiles,
       (runLoop exec cfg now 0 initialState agentConfigs).execLog,
       .agentFailed a msg⟩ := by
  have hgd : (some initialState).getD defaultState = initialState := rfl
  unfold startProject at h ⊢
  cases hp : (executeAgentPipeline exec cfg now (some initialState)).stop with
  | completedAll =>
    simp only [hp] at h
    exact absurd h (by simp)
  | depsUnmet a2 m2 =>
    simp only [hp] at h
    exact absurd h (by simp)
  | agentFailed a2 m2 =>
    simp only [hp] at h ⊢
    obtain ⟨ha, hm⟩ : a2 = a ∧ m2 = msg := by simpa using h
    rw [← ha, ← hm]
    obtain ⟨hl, hpe⟩ := pipeline_failed exec cfg now (some initialState) a2 m2 hp
    rw [hgd] at hl hpe
    rw [hpe]
    exact ⟨hl, rfl⟩

theorem resumeProject_failed (exec : String → ProjectConfig → OutputsMap → AgentResult)
    (cfg : ProjectConfig) (now : Nat → String) (s : AgentState) (a msg : String)
    (h : (resumeProject exec cfg now (some s)).stop = .agentFailed a msg) :
    (runLoop exec cfg now 0 s agentConfigs).stop = .agentFailed a msg ∧
    resumeProject exec cfg now (some s) =
      ⟨(runLoop exec cfg now 0 s agentConfigs).finalState, ["running"],
       (runLoop exec cfg now 0 s agentConfigs).stateWrites,
       .projectResumed :: (runLoop exec cfg now 0 s agentConfigs).events,
       (runLoop exec cfg now 0 s agentConfigs).savedFiles,
       (runLoop exec cfg now 0 s agentConfigs).execLog,
       .agentFailed a msg⟩ := by
  have hps : (executeAgentPipeline exec cfg now (some s)).stop = .agentFailed a msg := h
  obtain ⟨hl, hpe⟩ := pipeline_failed exec cfg now (some s) a msg hps
  have hgd : (some s).getD defaultState = s := rfl
  rw [hgd] at hl hpe
  constructor
  · exact hl
  · unfold resumeProject
    rw [hpe]

theorem mem_of_getLast?_eq {α : Type} {l : List α} {a : α} (h : l.getLast? = some a) :
    a ∈ l := by
  have hsplit := List.dropLast_append_getLast? a (by exact h)
  rw [← hsplit]
  simp

/- Claim theorems. -/

/-- C1 (amended): when a stage's execute reports failure, the
orchestrator appends the two error entries of the failure path to the
errors log, persists the final state, emits the stage-error event,
executes no further stage (the failing stage is the last executed), and
leaves completedStages exactly as accumulated by the earlier successful
stages; entered via start it additionally writes status `error` and
emits the run-error event, while entered via resume the status stays at
the `running` it wrote on entry and no run-error event is emitted. -/
theorem claim1_failure_containment :
    ∀ (exec : String → ProjectConfig → OutputsMap → AgentResult)
      (cfg : ProjectConfig) (now : Nat → String) (s : AgentState) (a msg : String),
      ((startProject exec cfg now).stop = .agentFailed a msg →
        (startProject exec cfg now).statusWrites = ["running", "error"] ∧
        (startProject exec cfg now).events.getLast? = some (.projectError msg) ∧
        Event.agentError a msg ∈ (startProject exec cfg now).events ∧
        (∃ r t1 t2, (startProject exec cfg now).execLog.getLast? = some (a, r) ∧
          r.success = false ∧
          (startProject exec cfg now).finalState.errors =
            [⟨a, jsOrElse r.error "Unknown error", t1⟩, ⟨a, msg, t2⟩]) ∧
        (startProject exec cfg now).stateWrites.getLast? =
          some (startProject exec cfg now).finalState ∧
        (startProject exec cfg now).finalState.completedAgents =
          ((startProject exec cfg now).execLog.dropLast).map (fun p => p.1) ∧
        a ∉ (startProject exec cfg now).finalState.completedAgents ∧
        (∀ p ∈ (startProject exec cfg now).execLog.dropLast, p.2.success = true)) ∧
      ((resumeProject exec cfg now (some s)).stop = .agentFailed a msg →
        (resumeProject exec cfg now (some s)).statusWrites = ["running"] ∧
        (∀ e ∈ (resumeProject exec cfg now (some s)).events, isRunErrorEv e = false) ∧
        Event.agentError a msg ∈ (resumeProject exec cfg now (some s)).events ∧
        (∃ r t1 t2,
          (resumeProject exec cfg now (some s)).execLog.getLast? = some (a, r) ∧
          r.success = false ∧
          (resumeProject exec cfg now (some s)).finalState.errors =
            s.errors ++ [⟨a, jsOrElse r.error "Unknown error", t1⟩, ⟨a, msg, t2⟩]) ∧
        (resumeProject exec cfg now (some s)).stateWrites.getLast? =
          some (resumeProject exec cfg now (some s)).finalState ∧
        (resumeProject exec cfg now (some s)).finalState.completedAgents =
          s.completedAgents ++
            ((resumeProject exec cfg now (some s)).execLog.dropLast).map (fun p => p.1) ∧
        a ∉ (resumeProject exec cfg now (some s)).finalState.completedAgents) := by
  intro exec cfg now s a msg
  constructor
  · intro h
    obtain ⟨hl, hpe⟩ := startProject_failed exec cfg now a msg h
    obtain ⟨r, t1, t2, hrs, hmsg, hlast, hdrop, hcomp, hnotin, herr, hw, hev⟩ :=
      runLoop_failure_anatomy exec cfg now agentConfigs 0 initialState a msg hl
    rw [hpe]
    refine ⟨rfl, ?_, ?_, ⟨r, t1, t2, hlast, hrs, by simpa using herr⟩, ?_, by simpa using hcomp,
      hnotin, hdrop⟩
    · show ((Event.projectStarted :: (runLoop exec cfg now 0 initialState agentConfigs).events)
        ++ [Event.projectError msg]).getLast? = some (Event.projectError msg)
      exact List.getLast?_concat ..
    · have hm : Event.agentError a msg ∈ (runLoop exec cfg now 0 initialState agentConfigs).events :=
        mem_of_getLast?_eq hev
      show Event.agentError a msg ∈
        (Event.projectStarted :: (runLoop exec cfg now 0 initialState agentConfigs).events)
          ++ [Event.projectError msg]
      simp [hm]
    · have hwne : (runLoop exec cfg now 0 initialState agentConfigs).stateWrites ≠ [] := by
        intro he
        rw [he] at hw
        exact Option.noConfusion hw
      show (initialState :: (runLoop exec cfg now 0 initialState agentConfigs).stateWrites).getLast?
        = some (runLoop exec cfg now 0 initialState agentConfigs).finalState
      rw [getLast?_cons_ne _ hwne]
      exact hw
  · intro h
    obtain ⟨hl, hpe⟩ := resumeProject_failed exec cfg now s a msg h
    obtain ⟨r, t1, t2, hrs, hmsg, hlast, hdrop, hcomp, hnotin, herr, hw, hev⟩ :=
      runLoop_failure_anatomy exec cfg now agentConfigs 0 s a msg hl
    rw [hpe]
    refine ⟨rfl, ?_, ?_, ⟨r, t1, t2, hlast, hrs, herr⟩, ?_, hcomp, hnotin⟩
    · intro e he
      show isRunErrorEv e = false
      rcases List.mem_cons.mp he with rfl | he2
      · rfl
      · exact (runLoop_no_run_events exec cfg now agentConfigs 0 s e he2).1
    · have hm : Event.agentError a msg ∈ (runLoop exec cfg now 0 s agentConfigs).events :=
        mem_of_getLast?_eq hev
      show Event.agentError a msg ∈
        Event.projectResumed :: (runLoop exec cfg now 0 s agentConfigs).events
      simp [hm]
    · exact hw

/-- C1 witness: with an execute oracle that fails at the very first
stage, both entry points satisfy the amended conclusion; shown here on
the status-write component. -/
theorem claim1_failure_containment_witness :
    (startProject execFailW cfgW nowW).statusWrites = ["running", "error"] ∧
    (resumeProject execFailW cfgW nowW (some initialState)).statusWrites = ["running"] :=
  ⟨((claim1_failure_containment execFailW cfgW nowW initialState "Requirement"
      "Agent Requirement failed: boom").1 (by decide)).1,
   ((claim1_failure_containment execFailW cfgW nowW initialState "Requirement"
      "Agent Requirement failed: boom").2 (by decide)).1⟩

/-- C1 counterexample: when the run loop is entered via resume and the
first stage fails, the run status is never set to `error` (the only
status write is the `running` written on entry) and no run-error event
is emitted, contradicting the claim that the failure handling is the
same whether the loop was entered via start or via resume. -/
theorem claim1_counterexample :
    (resumeProject execFailW cfgW nowW (some initialState)).stop =
      .agentFailed "Requirement" "Agent Requirement failed: boom" ∧
    (resumeProject execFailW cfgW nowW (some initialState)).statusWrites = ["running"] ∧
    ((resumeProject execFailW cfgW nowW (some initialState)).events.filter
      isRunErrorEv).length = 0 := by
  decide

/-- C2 (amended): in a run in which exactly one stage's execute call
fails, the errors log afterwards contains exactly two entries, both for
the failing stage (the stage's reported reason, then the orchestrator's
wrapped failure message), and no entry for any other stage. -/
theorem claim2_error_entries :
    ∀ (exec : String → ProjectConfig → OutputsMap → AgentResult)
      (cfg : ProjectConfig) (now : Nat → String) (a msg : String),
      (startProject exec cfg now).stop = .agentFailed a msg →
      (startProject exec cfg now).finalState.errors.length = 2 ∧
      (∀ e ∈ (startProject exec cfg now).finalState.errors, e.agent = a) ∧
      (((startProject exec cfg now).execLog.filter
        (fun p => !p.2.success)).map (fun p => p.1)) = [a] := by
  intro exec cfg now a msg h
  obtain ⟨hl, hpe⟩ := startProject_failed exec cfg now a msg h
  obtain ⟨r, t1, t2, hrs, hmsg, hlast, hdrop, hcomp, hnotin, herr, hw, hev⟩ :=
    runLoop_failure_anatomy exec cfg now agentConfigs 0 initialState a msg hl
  rw [hpe]
  have herrs : (runLoop exec cfg now 0 initialState agentConfigs).finalState.errors =
      [⟨a, jsOrElse r.error "Unknown error", t1⟩, ⟨a, msg, t2⟩] := by
    simpa using herr
  refine ⟨by rw [herrs]; rfl, ?_, ?_⟩
  · intro e he
    rw [herrs] at he
    rcases List.mem_cons.mp he with rfl | he2
    · rfl
    · rcases List.mem_cons.mp he2 with rfl | he3
      · rfl
      · exact absurd he3 (List.not_mem_nil e)
  · have hsplit := List.dropLast_append_getLast? (a, r) (by exact hlast)
    show (((runLoop exec cfg now 0 initialState agentConfigs).execLog).filter
      (fun p => !p.2.success)).map (fun p => p.1) = [a]
    rw [← hsplit, List.filter_append]
    have hnil : ((runLoop exec cfg now 0 initialState agentConfigs).execLog.dropLast).filter
        (fun p => !p.2.success) = [] := by
      rw [List.filter_eq_nil_iff]
      intro p hp
      rw [hdrop p hp]
      simp
    rw [hnil]
    simp [hrs]

/-- C2 witness: the amended conclusion holds on the Scenario D oracle
where only the Frontend stage fails. -/
theorem claim2_error_entries_witness :
    (startProject execScenD cfgW nowW).finalState.errors.length = 2 :=
  (claim2_error_entries execScenD cfgW nowW "Frontend"
    "Agent Frontend failed: model unavailable" (by decide)).1

/-- C2 counterexample: in the Scenario D run (Requirement succeeds,
Frontend fails, nothing else executes) the errors log holds two entries
for Frontend, not exactly one entry as claimed. -/
theorem claim2_counterexample :
    ((startProject execScenD cfgW nowW).execLog.map (fun p => p.1)) =
      ["Requirement", "Frontend"] ∧
    (((startProject execScenD cfgW nowW).execLog.filter
      (fun p => !p.2.success)).map (fun p => p.1)) = ["Frontend"] ∧
    (startProject execScenD cfgW nowW).finalState.errors.length = 2 ∧
    (∀ e ∈ (startProject execScenD cfgW nowW).finalState.errors,
      e.agent = "Frontend") := by
  decide

/-- C3 (amended): a run is created in status `pending`, and `paused`
re-enters `running` via resume; but none of the orchestrator operations
inspects the current status: start unconditionally writes `running` and
reinstalls a fresh Execution State, pause unconditionally writes
`paused` (from any status, terminal ones included), and resume
unconditionally writes `running`, so `completed` and `error` are not
terminal in the code. -/
theorem claim3_lifecycle :
    (∀ name cfg, (createProject name cfg).status = "pending") ∧
    (∀ st : String, applyStatusWrites st pauseProject.1 = "paused") ∧
    (∀ (exec : String → ProjectConfig → OutputsMap → AgentResult) cfg now sOpt,
      (resumeProject exec cfg now sOpt).statusWrites.head? = some "running") ∧
    (∀ (exec : String → ProjectConfig → OutputsMap → AgentResult) cfg now,
      (startProject exec cfg now).statusWrites.head? = some "running" ∧
      (startProject exec cfg now).stateWrites.head? = some initialState) := by
  refine ⟨fun _ _ => rfl, fun _ => rfl, fun _ _ _ _ => rfl, fun exec cfg now => ?_⟩
  unfold startProject
  cases hp : (executeAgentPipeline exec cfg now (some initialState)).stop <;> simp [hp]

/-- C3 counterexample: pausing a run whose status is `completed` moves
its status to `paused`, so `completed` is not terminal as claimed. -/
theorem claim3_counterexample :
    applyStatusWrites "completed" pauseProject.1 = "paused" ∧
    ("paused" : String) ≠ "completed" := by
  decide

/-- C5: for every `completedStages` set the loop head selects exactly
the stage the spec's selector describes (first declaration neither
completed nor missing a completed dependency): the code's
skip-then-check behaviour never throws the dependency-inconsistency
error on the fixed five-stage configuration, agrees with the
spec-modelled selector, and the first stage the run loop executes is
that selected stage - a pure function of `completedStages`. -/
theorem claim5_stage_selection :
    (∀ completed : List String, codeSelect completed = .ok (specSelect completed)) ∧
    (∀ (exec : String → ProjectConfig → OutputsMap → AgentResult) cfg now k s,
      ((runLoop exec cfg now k s agentConfigs).execLog.head?).map (fun p => p.1) =
        specSelect s.completedAgents) := by
  constructor
  · intro completed
    exact (selectAgree completed).1
  · intro exec cfg now k s
    rw [runLoop_head exec cfg now agentConfigs k s]
    exact (selectAgree s.completedAgents).2

/-- C7: resuming a run whose Execution State already contains every
declared stage performs no stage execution, writes no Execution State,
leaves the state untouched, and emits exactly the resumed event followed
by one run-completed event (with the status re-entering `completed`). -/
theorem claim7_resume_completed :
    ∀ (exec : String → ProjectConfig → OutputsMap → AgentResult) cfg now s,
      (∀ c ∈ agentConfigs, s.completedAgents.contains c.name = true) →
      resumeProject exec cfg now (some s) =
        ⟨s, ["running", "completed"], [], [.projectResumed, .projectCompleted],
          [], [], .completedAll⟩ ∧
      ((resumeProject exec cfg now (some s)).events.filter isRunCompletedEv).length = 1 := by
  intro exec cfg now s hall
  have hloop := runLoop_skip_all exec cfg now agentConfigs 0 s hall
  have hres : resumeProject exec cfg now (some s) =
      ⟨s, ["running", "completed"], [], [.projectResumed, .projectCompleted],
        [], [], .completedAll⟩ := by
    unfold resumeProject executeAgentPipeline
    simp [Option.getD_some, hloop]
  refine ⟨hres, ?_⟩
  rw [hres]
  rfl

/-- C7 witness: resuming with all five stages completed is a no-op that
reports completion once. -/
theorem claim7_resume_completed_witness :
    resumeProject execAllOk cfgW nowW (some stateAllDone) =
      ⟨stateAllDone, ["running", "completed"],
        [], [.projectResumed, .projectCompleted], [], [], .completedAll⟩ :=
  (claim7_resume_completed execAllOk cfgW nowW stateAllDone (by decide)).1

/-- C10: every artifact record the run loop hands to persistence has
size equal to the length of its content string, and both persistence
operations (addProjectFile as invoked by the run loop, and
updateProjectFile) preserve the size-coherence invariant of the file
store. -/
theorem claim10_artifact_size :
    (∀ (exec : String → ProjectConfig → OutputsMap → AgentResult) cfg now k s configs,
      ∀ f ∈ (runLoop exec cfg now k s configs).savedFiles, f.size = f.content.length) ∧
    (∀ store id g, SizeInv store → SizeInv (orchAddFile store id g)) ∧
    (∀ store id c, SizeInv store → SizeInv (updateProjectFile store id c)) := by
  refine ⟨?_, ?_, ?_⟩
  · intro exec cfg now k s configs
    induction configs generalizing k s with
    | nil =>
      intro f hf
      simp [runLoop] at hf
    | cons c rest ih =>
      intro f hf
      simp only [runLoop] at hf
      by_cases h1 : s.completedAgents.contains c.name = true
      · rw [if_pos h1] at hf
        exact ih k s f hf
      · rw [if_neg h1] at hf
        by_cases h2 : (c.dependencies.all fun d => s.completedAgents.contains d) = true
        · rw [if_pos h2] at hf
          by_cases h3 : (exec c.name cfg s.agentOutputs).success = true
          · rw [if_pos h3] at hf
            rcases List.mem_append.mp hf with hm | hm
            · obtain ⟨g, _, rfl⟩ := List.mem_map.mp hm
              rfl
            · exact ih k _ f hm
          · rw [if_neg h3] at hf
            exact absurd hf (List.not_mem_nil f)
        · rw [if_neg h2] at hf
          exact absurd hf (List.not_mem_nil f)
  · intro store id g hstore f hf
    rcases List.mem_append.mp hf with hm | hm
    · exact hstore f hm
    · rcases List.mem_singleton.mp hm with rfl
      rfl
  · intro store id c hstore f hf
    obtain ⟨g, hg, rfl⟩ := List.mem_map.mp hf
    by_cases hid : g.id = id
    · simp [hid]
    · simp only [if_neg hid]
      exact hstore g hg

/-- C10 witness: the invariant holds concretely after an orchestrator
add followed by a content replacement. -/
theorem claim10_artifact_size_witness :
    SizeInv (orchAddFile [] "id1" ⟨"/src/App.tsx", "hello", some "typescript"⟩) ∧
    SizeInv (updateProjectFile
      [⟨"id1", "/src/App.tsx", "hello", 5, some "typescript"⟩] "id1" "patched") :=
  ⟨claim10_artifact_size.2.1 [] "id1" ⟨"/src/App.tsx", "hello", some "typescript"⟩
      (by decide),
   claim10_artifact_size.2.2 [⟨"id1", "/src/App.tsx", "hello", 5, some "typescript"⟩]
      "id1" "patched" (by decide)⟩

theorem runLoop_inv (exec : String → ProjectConfig → OutputsMap → AgentResult)
    (cfg : ProjectConfig) (now : Nat → String) :
    ∀ (configs : List AgentConfig) (k : Nat) (s : AgentState),
      (∀ c ∈ configs, depsOf c.name = c.dependencies) →
      Inv s →
      (∀ w ∈ (runLoop exec cfg now k s configs).stateWrites, Inv w) ∧
      Inv (runLoop exec cfg now k s configs).finalState ∧
      (∀ a, a ∈ (runLoop exec cfg now k s configs).finalState.completedAgents →
        a ∈ s.completedAgents ∨
        ∃ r, (a, r) ∈ (runLoop exec cfg now k s configs).execLog ∧ r.success = true) := by
  intro configs
  induction configs with
  | nil =>
    intro k s hc hInv
    refine ⟨?_, hInv, ?_⟩
    · intro w hw
      simp [runLoop] at hw
    · intro a ha
      exact Or.inl ha
  | cons c rest ih =>
    intro k s hc hInv
    have hcrest : ∀ d ∈ rest, depsOf d.name = d.dependencies :=
      fun d hd => hc d (List.mem_cons_of_mem c hd)
    simp only [runLoop]
    by_cases h1 : s.completedAgents.contains c.name = true
    · rw [if_pos h1]
      exact ih k s hcrest hInv
    · rw [if_neg h1]
      have hnm : c.name ∉ s.completedAgents := by
        intro hm
        exact h1 ((contains_iff_mem s.completedAgents c.name).mpr hm)
      by_cases h2 : (c.dependencies.all fun d => s.completedAgents.contains d) = true
      · rw [if_pos h2]
        have h2m : ∀ d ∈ c.dependencies, d ∈ s.completedAgents := by
          intro d hd
          exact (contains_iff_mem s.completedAgents d).mp (List.all_eq_true.mp h2 d hd)
        by_cases h3 : (exec c.name cfg s.agentOutputs).success = true
        · rw [if_pos h3]
          set s3 : AgentState :=
            { currentAgent := none, completedAgents := s.completedAgents ++ [c.name],
              agentProgress := setKey s.agentProgress c.name 100,
              agentOutputs := setKey s.agentOutputs c.name (exec c.name cfg s.agentOutputs).output,
              errors := s.errors } with hs3
          have hInv1 : Inv { s with currentAgent := some c.name } := hInv
          have hInv3 : Inv s3 := by
            constructor
            · intro x hx d hd
              show d ∈ s.completedAgents ++ [c.name]
              rcases List.mem_append.mp hx with hxs | hxc
              · exact List.mem_append_left _ (hInv.1 x hxs d hd)
              · rcases List.mem_singleton.mp hxc with rfl
                rw [hc c (List.mem_cons_self c rest)] at hd
                exact List.mem_append_left _ (h2m d hd)
            · show (setKey s.agentOutputs c.name
                  (exec c.name cfg s.agentOutputs).output).map (fun p => p.1) =
                s.completedAgents ++ [c.name]
              have hfresh : c.name ∉ s.agentOutputs.map (fun p => p.1) := by
                rw [hInv.2]
                exact hnm
              rw [setKey_keys_fresh s.agentOutputs c.name _ hfresh, hInv.2]
          obtain ⟨ihw, ihf, ihhist⟩ := ih k s3 hcrest hInv3
          refine ⟨?_, ihf, ?_⟩
          · intro w hw
            rcases List.mem_cons.mp hw with rfl | hw2
            · exact hInv1
            · rcases List.mem_cons.mp hw2 with rfl | hw3
              · exact hInv3
              · exact ihw w hw3
          · intro a ha
            rcases ihhist a ha with hold | ⟨r, hr, hrs⟩
            · rcases List.mem_append.mp hold with hs | hcn
              · exact Or.inl hs
              · rcases List.mem_singleton.mp hcn with rfl
                exact Or.inr ⟨exec c.name cfg s.agentOutputs, List.mem_cons_self _ _, h3⟩
            · exact Or.inr ⟨r, List.mem_cons_of_mem _ hr, hrs⟩
        · rw [if_neg h3]
          have hInv1 : Inv { s with currentAgent := some c.name } := hInv
          have hInvf : Inv { s with
              currentAgent := some c.name,
              errors := s.errors ++
                [⟨c.name, jsOrElse (exec c.name cfg s.agentOutputs).error "Unknown error", now k⟩,
                 ⟨c.name, "Agent " ++ c.name ++ " failed: " ++
                    jsShow (exec c.name cfg s.agentOutputs).error, now (k + 1)⟩] } := hInv
          refine ⟨?_, hInvf, ?_⟩
          · intro w hw
            rcases List.mem_cons.mp hw with rfl | hw2
            · exact hInv1
            · rcases List.mem_cons.mp hw2 with rfl | hw3
              · exact hInvf
              · exact absurd hw3 (List.not_mem_nil w)
          · intro a ha
            exact Or.inl ha
      · rw [if_neg h2]
        refine ⟨?_, hInv, ?_⟩
        · intro w hw
          exact absurd hw (List.not_mem_nil w)
        · intro a ha
          exact Or.inl ha

/-- C6: the Execution State invariant holds of the fresh state and is
preserved by the run loop: in every state the loop persists (and in its
final state), each completed stage has all of its declared dependencies
completed, the stage appears in completedAgents only if it was executed
with a successful result (or was already completed on entry), and
agentOutputs holds an entry for a stage if and only if that stage is in
completedAgents. -/
theorem claim6_completed_invariant :
    Inv initialState ∧
    ∀ (exec : String → ProjectConfig → OutputsMap → AgentResult) cfg now k s,
      Inv s →
      (∀ w ∈ (runLoop exec cfg now k s agentConfigs).stateWrites, Inv w) ∧
      Inv (runLoop exec cfg now k s agentConfigs).finalState ∧
      (∀ q, (List.lookup q
          (runLoop exec cfg now k s agentConfigs).finalState.agentOutputs).isSome ↔
        q ∈ (runLoop exec cfg now k s agentConfigs).finalState.completedAgents) ∧
      (∀ a, a ∈ (runLoop exec cfg now k s agentConfigs).finalState.completedAgents →
        a ∈ s.completedAgents ∨
        ∃ r, (a, r) ∈ (runLoop exec cfg now k s agentConfigs).execLog ∧
          r.success = true) := by
  refine ⟨by decide, ?_⟩
  intro exec cfg now k s hInv
  have hc : ∀ c ∈ agentConfigs, depsOf c.name = c.dependencies := by decide
  obtain ⟨hw, hf, hhist⟩ := runLoop_inv exec cfg now agentConfigs k s hc hInv
  refine ⟨hw, hf, ?_, hhist⟩
  intro q
  rw [lookup_isSome_iff q, hf.2]

/-- C6 witness: the invariant conclusion holds concretely for the loop
run from the fresh state on an all-successful oracle. -/
theorem claim6_completed_invariant_witness :
    Inv (runLoop execAllOk cfgW nowW 0 initialState agentConfigs).finalState :=
  (claim6_completed_invariant.2 execAllOk cfgW nowW 0 initialState
    claim6_completed_invariant.1).2.1

/-- C4 (amended): the Frontend and Backend stages check their
Requirement dependency and fail fast with a descriptive reason when it
is absent, and the Validator checks its Frontend dependency the same
way; but the Validator does not check its declared Backend dependency:
with the Frontend output present it always proceeds to the generation
call (treating a missing Backend output as empty backend code), so its
only failures are generation failures. -/
theorem claim4_dependency_checks :
    ∀ (gen vr fr : AIResponse) (parseF parseB : String → ProjectConfig → List GenFile)
      (pf : String → List GenFile) (cfg : ProjectConfig) (prev prevV : OutputsMap)
      (fo : Output),
      (getTruthy prev "Requirement" = none →
        frontendExecute gen parseF cfg prev =
          ⟨false, none, some "Requirements not found from previous agent", []⟩) ∧
      (getTruthy prev "Requirement" = none →
        backendExecute gen parseB cfg prev =
          ⟨false, none, some "Requirements not found from previous agent", []⟩) ∧
      (getTruthy prevV "Frontend" = none →
        validatorExecute vr fr pf prevV =
          (⟨false, none, some "Frontend output not found from previous agent", []⟩, 0)) ∧
      (getTruthy prevV "Frontend" = some fo →
        ((validatorExecute vr fr pf prevV).1.success = true ∧
          1 ≤ (validatorExecute vr fr pf prevV).2) ∨
        ((validatorExecute vr fr pf prevV).1.error =
            some (jsOrElse vr.error "Failed to validate code") ∧
          (validatorExecute vr fr pf prevV).2 = 1)) := by
  intro gen vr fr parseF parseB pf cfg prev prevV fo
  refine ⟨?_, ?_, ?_, ?_⟩
  · intro h
    simp [frontendExecute, h]
  · intro h
    simp [backendExecute, h]
  · intro h
    simp [validatorExecute, validatorCode, h]
  · intro h
    simp only [validatorExecute, validatorCode, h]
    by_cases hv : vr.success = true
    · rw [if_pos hv]
      by_cases hcrit : (parseValidationResults vr.content).criticalIssues.length > 0
      · rw [if_pos hcrit]
        exact Or.inl ⟨rfl, Nat.le_add_right 1 _⟩
      · rw [if_neg hcrit]
        exact Or.inl ⟨rfl, Nat.le_refl 1⟩
    · rw [if_neg hv]
      exact Or.inr ⟨rfl, rfl⟩

/-- C4 witness: the fail-fast conclusions hold at concrete inputs with
the relevant dependency output missing, and the Frontend-present
conclusion at a concrete validator input. -/
theorem claim4_dependency_checks_witness :
    frontendExecute ⟨"", true, none⟩ (fun _ _ => []) cfgW [] =
      ⟨false, none, some "Requirements not found from previous agent", []⟩ ∧
    (((validatorExecute ⟨"", true, none⟩ frFailing (fun _ => []) prevNoBackend).1.success = true ∧
      1 ≤ (validatorExecute ⟨"", true, none⟩ frFailing (fun _ => []) prevNoBackend).2) ∨
    ((validatorExecute ⟨"", true, none⟩ frFailing (fun _ => []) prevNoBackend).1.error =
        some (jsOrElse (none : Option String) "Failed to validate code") ∧
      (validatorExecute ⟨"", true, none⟩ frFailing (fun _ => []) prevNoBackend).2 = 1)) :=
  ⟨(claim4_dependency_checks ⟨"", true, none⟩ ⟨"", true, none⟩ frFailing
      (fun _ _ => []) (fun _ _ => []) (fun _ => []) cfgW [] prevNoBackend
      (.frontendOut "x" 0)).1 (by decide),
   (claim4_dependency_checks ⟨"", true, none⟩ ⟨"", true, none⟩ frFailing
      (fun _ _ => []) (fun _ _ => []) (fun _ => []) cfgW [] prevNoBackend
      (.frontendOut "x" 0)).2.2.2 (by decide)⟩

/-- C4 counterexample: with the Frontend output present but the Backend
output entirely absent, the Validator does not return failure - it
succeeds - contradicting the claim that every stage checks all of its
declared dependency outputs and that the Validator fails fast when the
Backend output is absent. -/
theorem claim4_counterexample :
    getTruthy prevNoBackend "Backend" = none ∧
    (validatorExecute ⟨"", true, none⟩ frFailing (fun _ => []) prevNoBackend).1.success
      = true := by
  decide

/-- C8: when the Backend stage determines no backend is needed, it
returns success with the skipped sentinel (`type` frontend-only) and
zero artifacts, before any generation call; and the Validator, given a
present Frontend output and that sentinel as its Backend input, builds
its validation input with empty backend code and hasBackend = false
(treating the run as frontend-only) and proceeds to the generation call
instead of raising a missing-predecessor failure. -/
theorem claim8_skipped_backend :
    ∀ (gen vr fr : AIResponse) (parse : String → ProjectConfig → List GenFile)
      (pf : String → List GenFile) (cfg : ProjectConfig) (prev prevV : OutputsMap)
      (req fo : Output) (m : String),
      (getTruthy prev "Requirement" = some req →
        checkIfBackendNeeded cfg req = false →
        backendExecute gen parse cfg prev =
          ⟨true, some (.frontendOnly "No backend required"), none, []⟩) ∧
      (getTruthy prevV "Frontend" = some fo →
        getTruthy prevV "Backend" = some (.frontendOnly m) →
        validatorCode prevV = some ⟨(fo.codeGenerated?).getD "", "", false⟩ ∧
        1 ≤ (validatorExecute vr fr pf prevV).2) := by
  intro gen vr fr parse pf cfg prev prevV req fo m
  constructor
  · intro hreq hno
    simp [backendExecute, hreq, hno]
  · intro hf hb
    have hcode : validatorCode prevV = some ⟨(fo.codeGenerated?).getD "", "", false⟩ := by
      simp [validatorCode, hf, hb, Output.codeGenerated?, Output.typeField?]
    refine ⟨hcode, ?_⟩
    simp only [validatorExecute, hcode]
    by_cases hv : vr.success = true
    · rw [if_pos hv]
      by_cases hcrit : (parseValidationResults vr.content).criticalIssues.length > 0
      · rw [if_pos hcrit]
        exact Nat.le_add_right 1 _
      · rw [if_neg hcrit]
    · rw [if_neg hv]

/-- C8 witness: a project with no backend keywords, database `none` and
no features makes the Backend stage return the sentinel, and the
Validator accepts it. -/
theorem claim8_skipped_backend_witness :
    backendExecute ⟨"", true, none⟩ (fun _ _ => [])
        ⟨"proj", "", "react", "none", none⟩
        [("Requirement", some (.requirementOut "a simple page"))] =
      ⟨true, some (.frontendOnly "No backend required"), none, []⟩ ∧
    validatorCode
        [("Frontend", some (.frontendOut "fcode" 1)),
         ("Backend", some (.frontendOnly "No backend required"))] =
      some ⟨"fcode", "", false⟩ :=
  ⟨(claim8_skipped_backend ⟨"", true, none⟩ ⟨"", true, none⟩ frFailing
      (fun _ _ => []) (fun _ => []) ⟨"proj", "", "react", "none", none⟩
      [("Requirement", some (.requirementOut "a simple page"))]
      [("Frontend", some (.frontendOut "fcode" 1)),
       ("Backend", some (.frontendOnly "No backend required"))]
      (.requirementOut "a simple page") (.frontendOut "fcode" 1)
      "No backend required").1 (by decide) (by decide),
   ((claim8_skipped_backend ⟨"", true, none⟩ ⟨"", true, none⟩ frFailing
      (fun _ _ => []) (fun _ => []) ⟨"proj", "", "react", "none", none⟩
      [("Requirement", some (.requirementOut "a simple page"))]
      [("Frontend", some (.frontendOut "fcode" 1)),
       ("Backend", some (.frontendOnly "No backend required"))]
      (.requirementOut "a simple page") (.frontendOut "fcode" 1)
      "No backend required").2 (by decide) (by decide)).1⟩

/-- C9 (amended): when the parsed validation report contains at least
one critical issue the Validator makes exactly one additional
generation call and returns success with isProductionReady false and
the fixes parsed from that single corrective call - a list that may be
empty, for instance when the corrective call fails or yields no
extractable files; with no critical issues it returns success with
isProductionReady true, no fix artifacts, and no additional call. -/
theorem claim9_validator_fixes :
    ∀ (vr fr : AIResponse) (pf : String → List GenFile) (prev : OutputsMap)
      (fo : Output),
      getTruthy prev "Frontend" = some fo →
      vr.success = true →
      ((parseValidationResults vr.content).criticalIssues ≠ [] →
        validatorExecute vr fr pf prev =
          (⟨true,
            some (.validatorOut vr.content
              (parseValidationResults vr.content).criticalIssues
              (parseValidationResults vr.content).minorIssues
              (parseValidationResults vr.content).qualityScore
              (generateFixes fr pf (parseValidationResults vr.content).criticalIssues).1
              false),
            none,
            (generateFixes fr pf (parseValidationResults vr.content).criticalIssues).1⟩,
          2)) ∧
      ((parseValidationResults vr.content).criticalIssues = [] →
        validatorExecute vr fr pf prev =
          (⟨true,
            some (.validatorOut vr.content []
              (parseValidationResults vr.content).minorIssues
              (parseValidationResults vr.content).qualityScore [] true),
            none, []⟩, 1)) := by
  intro vr fr pf prev fo hf hv
  have hcode : ∃ cd, validatorCode prev = some cd := by
    unfold validatorCode
    rw [hf]
    exact ⟨_, rfl⟩
  obtain ⟨cd, hcd⟩ := hcode
  constructor
  · intro hcrit
    have hpos : (parseValidationResults vr.content).criticalIssues.length > 0 :=
      List.length_pos.mpr hcrit
    have hfx2 : (generateFixes fr pf (parseValidationResults vr.content).criticalIssues).2
        = 1 := by
      unfold generateFixes
      rw [if_neg (by omega)]
      split
      · rfl
      · rfl
    simp only [validatorExecute, hcd, if_pos hv, if_pos hpos]
    rw [Prod.mk.injEq]
    constructor
    · rfl
    · rw [hfx2]
  · intro hnone
    have hzero : ¬ (parseValidationResults vr.content).criticalIssues.length > 0 := by
      rw [hnone]
      simp
    simp only [validatorExecute, hcd, if_pos hv, if_neg hzero]

/-- C9 witness: the amended conclusion instantiated at a report with one
critical issue and a failing corrective call, and at an empty report. -/
theorem claim9_validator_fixes_witness :
    validatorExecute vrCritical frFailing (fun _ => []) prevNoBackend =
      (⟨true,
        some (.validatorOut vrCritical.content
          (parseValidationResults vrCritical.content).criticalIssues
          (parseValidationResults vrCritical.content).minorIssues
          (parseValidationResults vrCritical.content).qualityScore
          (generateFixes frFailing (fun _ => [])
            (parseValidationResults vrCritical.content).criticalIssues).1
          false),
        none,
        (generateFixes frFailing (fun _ => [])
          (parseValidationResults vrCritical.content).criticalIssues).1⟩, 2) :=
  (claim9_validator_fixes vrCritical frFailing (fun _ => []) prevNoBackend
    (.frontendOut "x" 0) (by decide) (by decide)).1 (by decide)

/-- C9 counterexample: with a report parsing to one critical issue but a
failing corrective-generation call, the Validator still returns success
with isProductionReady false and an EMPTY fixes list, contradicting the
claim that the fixes artifact list is non-empty whenever critical issues
are present. -/
theorem claim9_counterexample :
    (parseValidationResults vrCritical.content).criticalIssues =
      ["This is a serious bug here"] ∧
    validatorExecute vrCritical frFailing (fun _ => []) prevNoBackend =
      (⟨true,
        some (.validatorOut vrCritical.content ["This is a serious bug here"] []
          "7" [] false),
        none, []⟩, 2) := by
  decide

end FWG
